import Mathlib

/-!
Verification of the `FileWatcher` log-tailing engine (`src/watcher.py`)
against its natural-language specification.

The Python program is shallowly embedded: the filesystem visible to `glob`,
`os.path.isfile` / `os.path.isdir` and `open` is an explicit finite model;
paths stored in the model are already absolute and canonical, so
`os.path.abspath` is the identity on them.  Python `dict`s become association
lists (keys unique), Python `set`s become duplicate-free lists, text file
handles carry an explicit character cursor, and raising an exception becomes
an `Except` / `Option` result.  One character of the model stands for one
byte of file content.
-/

set_option autoImplicit false

namespace LogWatcher

/-- Python exceptions that the modelled code paths can raise. -/
inductive PyError where
  | typeError
  | attributeError
  | keyError
  deriving DecidableEq, Repr

/-! ## Filesystem model -/

/-- A regular file in the modelled filesystem: its absolute path, its current
content, and whether `open(path, "r")` succeeds and yields a readable handle
(collapsing the two failure branches of `FileWatcher.open`: the `open` call
raising, and `f.readable()` returning false). -/
structure FSFile where
  path : String
  content : List Char
  canOpen : Bool
  deriving DecidableEq, Repr

/-- The filesystem visible to `glob` and `os.path`: regular files and
directories, all under absolute canonical paths. -/
structure FS where
  files : List FSFile
  dirs : List String
  deriving DecidableEq, Repr

/-- Shell-glob matching as used by Python `glob.glob`, on the features the
program relies on: literal characters, `*` (any run of characters not
containing the path separator `/`) and `?` (any single character other than
`/`).  Recursion is structural on the pattern. -/
def globMatch : List Char → List Char → Bool
  | [], s => s.isEmpty
  | '*' :: ps, s =>
      (List.range (s.length + 1)).any (fun k =>
        ((s.take k).all (fun c => c != '/')) && globMatch ps (s.drop k))
  | '?' :: _, [] => false
  | '?' :: ps, c :: cs => (c != '/') && globMatch ps cs
  | _ :: _, [] => false
  | p :: ps, c :: cs => (p == c) && globMatch ps cs

/-- All paths that exist in the filesystem (files and directories). -/
def fsPaths (fs : FS) : List String :=
  fs.files.map (fun fe => fe.path) ++ fs.dirs

/-- `glob.glob(pattern)`: every existing path matching the pattern. -/
def globFS (fs : FS) (pattern : String) : List String :=
  (fsPaths fs).filter (fun p => globMatch pattern.data p.data)

/-- `os.path.isfile`. -/
def isfile (fs : FS) (p : String) : Bool :=
  fs.files.any (fun fe => fe.path == p)

/-- `os.path.isdir`. -/
def isdir (fs : FS) (p : String) : Bool :=
  fs.dirs.contains p

/-- Content of the file at `path` (empty when no such file). -/
def contentOf (fs : FS) (path : String) : List Char :=
  match fs.files.find? (fun fe => fe.path == path) with
  | some fe => fe.content
  | none => []

/-! ## Python sets as duplicate-free lists -/

/-- `set.add`: add an element unless already present. -/
def setAdd (acc : List String) (p : String) : List String :=
  if acc.contains p then acc else acc ++ [p]

/-- `set.update`: add every element of `new`. -/
def setUpdate (acc new : List String) : List String :=
  new.foldl setAdd acc

/-! ## Path resolution (`watcher.py` lines 37-67) -/

def FILE_PICK_TYPE : Nat := 1
def DIR_PICK_TYPE : Nat := 2

/-- A value passed as the `path` / `exclude` argument: a string, a list of
strings, or Python `None` (the default of `exclude`). -/
inductive PyPath where
  | pstr : String → PyPath
  | plist : List String → PyPath
  | pnone : PyPath

/-- `FileWatcher._parse_path` (lines 46-67): glob the pattern and keep the
matches of the requested kind, as a set.  The stored paths being absolute,
`os.path.abspath` is the identity.  The `except` branch (a failing glob) has
no counterpart because the modelled glob is total. -/
def _parse_path (fs : FS) (path : Option String) (pick_type : Nat) : List String :=
  match path with
  | none => []
  | some s =>
      (globFS fs s).foldl
        (fun acc p =>
          if pick_type == FILE_PICK_TYPE && isfile fs p then setAdd acc p
          else if pick_type == DIR_PICK_TYPE && isdir fs p then setAdd acc p
          else acc) []

/-- `FileWatcher.parse_path` (lines 37-44).  A `str` or `list` argument is
resolved through `_parse_path`; any other argument (in particular `None`)
falls through both `isinstance` branches and the method returns Python
`None`, modelled as `Option.none`. -/
def parse_path (fs : FS) (path : PyPath) (pick_type : Nat) : Option (List String) :=
  match path with
  | .pstr s => some (_parse_path fs (some s) pick_type)
  | .plist l => some (l.foldl (fun acc p => setUpdate acc (_parse_path fs (some p) pick_type)) [])
  | .pnone => none

/-! ## Association lists (Python dicts) -/

/-- `d[k]` lookup. -/
def lookupA {α : Type} (l : List (String × α)) (k : String) : Option α :=
  match l with
  | [] => none
  | (k1, v) :: rest => if k1 = k then some v else lookupA rest k

/-- `d[k] = v` on an existing key: replace the value (every use in the
modelled code assigns a key that is already present). -/
def updateA {α : Type} (l : List (String × α)) (k : String) (v : α) : List (String × α) :=
  match l with
  | [] => []
  | (k1, v1) :: rest =>
      if k1 = k then (k1, v) :: updateA rest k v else (k1, v1) :: updateA rest k v

/-- `d.pop(k)`: drop the entry with key `k`. -/
def removeA {α : Type} (l : List (String × α)) (k : String) : List (String × α) :=
  l.filter (fun kv => kv.1 ≠ k)

/-! ## Watcher state -/

/-- An open text file handle: the current cursor position (in characters,
standing for bytes).  `FileWatcher.open` seeks it to `0`. -/
structure Handle where
  pos : Nat
  deriving DecidableEq, Repr

/-- A queue entry: the dict `{"path": path, "msg": msg}` built by `put`. -/
structure Entry where
  path : String
  msg : String
  deriving DecidableEq, Repr

/-- `queue.Queue(maxsize)`: a bounded FIFO.  `maxsize = 0` means unbounded,
as in Python. -/
structure WQueue where
  maxsize : Nat
  items : List Entry
  deriving DecidableEq, Repr

/-- A registered handler: a predicate `match` over the line and an ordered
list of action functions, represented by opaque identifiers (`await
func(msg)` is recorded as a dispatch event naming the identifier). -/
structure Handler where
  matchMsg : String → Bool
  funcs : List Nat

/-- The attribute state of a `FileWatcher` instance, exactly the attributes
assigned by `__init__` (lines 24-35). -/
structure Watcher where
  files_included : Option (List String)
  files_excluded : Option (List String)
  files : List String
  dirs : List String
  handlers : List Handler
  fds : List (String × Option Handle)
  progress : List (String × Nat)
  queue : WQueue
  interval : Nat
  stop_watch_flag : Bool

/-- `FileWatcher.open` (lines 87-102): open the file for reading and seek to
position `0` — the beginning of the file, per the method and its docstring
("open file descriptor and seek to the beginning of the file").  A failed
open or a non-readable handle yields `None`. -/
def openFile (fs : FS) (path : String) : Option Handle :=
  match fs.files.find? (fun fe => fe.path == path) with
  | some fe => if fe.canOpen then some { pos := 0 } else none
  | none => none

/-- The watcher fields shared by every successful `__init__` outcome. -/
def mkWatcher (fs : FS) (finc fexc : Option (List String)) (files : List String)
    (every : Bool) (path : PyPath) (interval qmaxsize : Nat) : Watcher :=
  { files_included := finc
    files_excluded := fexc
    files := files
    dirs := if every then (parse_path fs path DIR_PICK_TYPE).getD [] else []
    handlers := []
    fds := files.map (fun p => (p, openFile fs p))
    progress := files.map (fun p => (p, 0))
    queue := { maxsize := qmaxsize, items := [] }
    interval := interval
    stop_watch_flag := false }

/-- `FileWatcher.__init__` (lines 14-35).  Line 26 builds
`[f for f in self.files_included if f not in self.files_excluded]`: iterating
over Python `None` raises `TypeError`, and so does evaluating
`f not in None` for the first element when only the exclusion side is `None`;
with an empty inclusion the filter body never runs, so construction succeeds.
The `dirs` fallback `.getD []` is unreachable with a `None` path, because
line 26 already raised in that case. -/
def initWatcher (fs : FS) (path : PyPath) (every : Bool) (exclude : PyPath)
    (interval qmaxsize : Nat) : Except PyError Watcher :=
  let finc := parse_path fs path FILE_PICK_TYPE
  let fexc := parse_path fs exclude FILE_PICK_TYPE
  match finc, fexc with
  | none, _ => .error .typeError
  | some inc, none =>
      if inc.isEmpty then
        .ok (mkWatcher fs (some inc) none [] every path interval qmaxsize)
      else .error .typeError
  | some inc, some exc =>
      .ok (mkWatcher fs (some inc) (some exc)
        (inc.filter (fun f => !(exc.contains f))) every path interval qmaxsize)

/-! ## Queue operations -/

/-- `queue.Queue.put(item)`: `none` models the producer blocking because the
queue is full (`maxsize` positive and reached); otherwise the item is
appended. -/
def qput (q : WQueue) (e : Entry) : Option WQueue :=
  if q.maxsize != 0 && q.maxsize ≤ q.items.length then none
  else some { q with items := q.items ++ [e] }

/-- `queue.Queue.get()`: `none` models the consumer blocking on an empty
queue; otherwise the front entry is removed and returned. -/
def qget (q : WQueue) : Option (Entry × WQueue) :=
  match q.items with
  | [] => none
  | e :: rest => some (e, { q with items := rest })

/-- `FileWatcher.put` (lines 155-160): an empty message is dropped
(`if msg:`); a non-empty one is enqueued, blocking (`none`) when the queue is
full. -/
def putMsg (w : Watcher) (path msg : String) : Option Watcher :=
  if msg = "" then some w
  else (qput w.queue { path := path, msg := msg }).map (fun q => { w with queue := q })

/-- `FileWatcher.commit` (lines 149-153): `self.progress[path] += offset`,
raising `KeyError` when the path has no progress entry. -/
def commitProgress (w : Watcher) (path : String) (offset : Nat) : Except PyError Watcher :=
  match lookupA w.progress path with
  | none => .error .keyError
  | some v => .ok { w with progress := updateA w.progress path (v + offset) }

/-- Python `str.strip()` whitespace characters (ASCII). -/
def isPySpace (c : Char) : Bool :=
  c == ' ' || c == '\t' || c == '\n' || c == '\r' || c == Char.ofNat 11 || c == Char.ofNat 12

/-- Python `str.strip()`. -/
def pyStrip (s : String) : String :=
  String.mk (((s.data.dropWhile isPySpace).reverse.dropWhile isPySpace).reverse)

/-- Outcome of `FileWatcher.get` (lines 162-170). -/
inductive GetResult where
  | blockedEmpty
  | errCommit (e : PyError)
  | ok (w : Watcher) (msg : String)

/-- `FileWatcher.get`: dequeue (blocking on empty), commit the raw message
length, return the stripped message.  A `KeyError` from `commit` propagates
out of `get`. -/
def getMsg (w : Watcher) : GetResult :=
  match qget w.queue with
  | none => .blockedEmpty
  | some (e, q) =>
      let w1 := { w with queue := q }
      match commitProgress w1 e.path e.msg.length with
      | .error pe => .errCommit pe
      | .ok w2 => .ok w2 (pyStrip e.msg)

/-! ## close / stop (lines 104-110, 141-147) -/

/-- `FileWatcher.close`: nothing happens when the path is not a key of
`self.fds`; when it is, `self.fds[path].close()` is called — which raises
`AttributeError` when the stored handle is already `None` — and then the
entry is set to `None`. -/
def closeFD (w : Watcher) (path : String) : Except PyError Watcher :=
  match lookupA w.fds path with
  | none => .ok w
  | some none => .error .attributeError
  | some (some _) => .ok { w with fds := updateA w.fds path none }

/-- The loop of `FileWatcher.stop`: `for p in self.fds.keys(): self.close(p)`
over a fixed key list, stopping at the first raised exception. -/
def closeAll (ks : List String) (w : Watcher) : Except PyError Watcher :=
  match ks with
  | [] => .ok w
  | p :: rest =>
      match closeFD w p with
      | .error e => .error e
      | .ok w1 => closeAll rest w1

/-- `FileWatcher.stop`: set the stop flag, then close every key of
`self.fds` in order. -/
def stopWatcher (w : Watcher) : Except PyError Watcher :=
  closeAll (w.fds.map (fun kv => kv.1)) { w with stop_watch_flag := true }

/-! ## readline and the file-poller loop body (lines 112-127) -/

/-- Characters of one `readline` call: up to and including the first newline,
or to end-of-file when no newline follows. -/
def takeLine : List Char → List Char
  | [] => []
  | c :: cs => if c = '\n' then [c] else c :: takeLine cs

/-- `f.readline()` starting at cursor `pos` over the file content as it is
now (appends since open are visible to the handle). -/
def readlineFrom (content : List Char) (pos : Nat) : List Char :=
  takeLine (content.drop pos)

/-- What one execution of the `watch_file` loop body did. -/
inductive CycleResult where
  | read (msg : String)
  | blockedPut (msg : String)
  | removed
  | keyErrorCaught
  | popKeyErrorCaught

/-- One execution of the `while` body of `FileWatcher.watch_file`, given the
current filesystem.  `self.fds[path]` on an absent key raises `KeyError`,
caught by the `except` clause (the cycle only logs).  A live handle reads one
line — the cursor advances past whatever was read, newline-terminated or
not — and `put` enqueues it when non-empty (`blockedPut` when the queue is
full, with the cursor already advanced).  A `None` handle pops the path from
`self.fds` and from `self.progress`; a missing progress key would make that
second `pop` raise `KeyError` after the first already succeeded. -/
def watchFileCycle (fs : FS) (w : Watcher) (path : String) : Watcher × CycleResult :=
  match lookupA w.fds path with
  | none => (w, .keyErrorCaught)
  | some (some h) =>
      let msgChars := readlineFrom (contentOf fs path) h.pos
      let msg := String.mk msgChars
      let w1 := { w with fds := updateA w.fds path (some { pos := h.pos + msgChars.length }) }
      match putMsg w1 path msg with
      | some w2 => (w2, .read msg)
      | none => (w1, .blockedPut msg)
  | some none =>
      let w1 := { w with fds := removeA w.fds path }
      match lookupA w.progress path with
      | some _ => ({ w1 with progress := removeA w1.progress path }, .removed)
      | none => (w1, .popKeyErrorCaught)

/-- The `while not self.stop_watch_flag` guard: `none` when the loop exits,
otherwise the next cycle runs. -/
def watchFileLoopStep (fs : FS) (w : Watcher) (path : String) :
    Option (Watcher × CycleResult) :=
  if w.stop_watch_flag then none else some (watchFileCycle fs w path)

/-! ## Directory poller (lines 129-139) -/

/-- One execution of the `while` body of `FileWatcher.watch_dir`: re-resolve
`self.parse_path(path)` — with the default `FILE_PICK_TYPE` — and for every
resolved path not already a key of `self.fds`, open it and register progress
`0`. -/
def watchDirCycle (fs : FS) (w : Watcher) (path : String) : Watcher :=
  (_parse_path fs (some path) FILE_PICK_TYPE).foldl
    (fun acc p =>
      if (lookupA acc.fds p).isSome then acc
      else { acc with
        fds := acc.fds ++ [(p, openFile fs p)]
        progress := acc.progress ++ [(p, 0)] }) w

/-- `n` consecutive `watch_dir` cycles. -/
def watchDirRun (fs : FS) (path : String) : Nat → Watcher → Watcher
  | 0, w => w
  | n + 1, w => watchDirRun fs path n (watchDirCycle fs w path)

/-! ## add_path (lines 69-77) -/

/-- `FileWatcher.add_path`: resolve the pattern and register every path not
already a key of `self.fds`, with a fresh handle and progress `0`.  With a
non-`str`, non-`list` argument `parse_path` returns `None` and the `for`
loop raises `TypeError`. -/
def add_path (fs : FS) (w : Watcher) (path : PyPath) : Except PyError Watcher :=
  match parse_path fs path FILE_PICK_TYPE with
  | none => .error .typeError
  | some ps =>
      .ok (ps.foldl
        (fun acc p =>
          if (lookupA acc.fds p).isSome then acc
          else { acc with
            fds := acc.fds ++ [(p, openFile fs p)]
            progress := acc.progress ++ [(p, 0)] }) w)

/-! ## Handler registry and dispatcher (lines 185-198) -/

/-- `FileWatcher.register_handler`: `self.handlers.append(handler)`. -/
def register_handler (handlers : List Handler) (h : Handler) : List Handler :=
  handlers ++ [h]

/-- An observable event of `handle_msg`: the predicate of the handler at
position `i` was evaluated (with its result), or action `fid` of the handler
at position `i` was awaited. -/
inductive DispatchEvent where
  | eval : Nat → Bool → DispatchEvent
  | call : Nat → Nat → DispatchEvent
  deriving DecidableEq, Repr

/-- The loop of `FileWatcher.handle_msg`, instrumented with the trace of
events it produces, `i` being the position of the first remaining handler:
`for handler in self.handlers: if handler.match(msg): for func in
handler.funcs: await func(msg)`. -/
def handleMsgAux (msg : String) : List Handler → Nat → List DispatchEvent
  | [], _ => []
  | h :: hs, i =>
      DispatchEvent.eval i (h.matchMsg msg) ::
        ((if h.matchMsg msg then h.funcs.map (DispatchEvent.call i) else []) ++
          handleMsgAux msg hs (i + 1))

/-- `FileWatcher.handle_msg` as the trace of predicate evaluations and
awaited actions it performs on `msg`. -/
def handle_msg (handlers : List Handler) (msg : String) : List DispatchEvent :=
  handleMsgAux msg handlers 0

/-- The declarative dispatch order stated by the spec: handlers in
registration order; for each, its predicate is evaluated, and when it
matches, all of its actions run in their registered order before the next
handler is considered. -/
def dispatchSpec (handlers : List Handler) (msg : String) : List DispatchEvent :=
  (handlers.enum).flatMap (fun ih =>
    DispatchEvent.eval ih.1 (ih.2.matchMsg msg) ::
      (if ih.2.matchMsg msg then ih.2.funcs.map (DispatchEvent.call ih.1) else []))

/-! ## run (lines 200-207) -/

/-- Every attribute a `FileWatcher` instance has: the instance attributes
assigned by `__init__` (lines 24-35) and the methods of the class.  No
operation of the class ever assigns an attribute named `paths`. -/
def watcherAttrNames : List String :=
  ["files_included", "files_excluded", "files", "dirs", "handlers",
   "fds", "progress", "queue", "interval", "stop_watch_flag",
   "parse_path", "_parse_path", "add_path", "add_dir", "open", "close",
   "watch_file", "watch_dir", "stop", "commit", "put", "get", "seek",
   "register_handler", "handle_msg", "run"]

/-- Attribute lookup on a `FileWatcher` instance. -/
def hasWatcherAttr (name : String) : Bool :=
  watcherAttrNames.contains name

/-- `FileWatcher.run`: line 204 evaluates `self.paths` before any
`asyncio.create_task` call; when that attribute lookup fails the whole
method raises `AttributeError` with zero tasks created, otherwise (were the
attribute to exist) one task per watched file, one per watched directory,
and one dispatcher task would be created. -/
def runWatcher (w : Watcher) : Except PyError Nat :=
  if hasWatcherAttr "paths" then
    .ok (w.files.length + w.dirs.length + 1)
  else .error .attributeError

/-! ## getN: repeated consumer pulls, and delivered-byte bookkeeping -/

/-- Total raw length of a list of queue entries (as committed by `get`). -/
def sumLens (es : List Entry) : Nat :=
  (es.map (fun e => e.msg.length)).sum

/-- `n` consecutive successful `get` calls: the final state and the delivered
(stripped) messages, or `none` when some call blocked or raised. -/
def getN : Nat → Watcher → Option (Watcher × List String)
  | 0, w => some (w, [])
  | n + 1, w =>
      match getMsg w with
      | .ok w1 m => (getN n w1).map (fun r => (r.1, m :: r.2))
      | _ => none

/-! ## Concrete fixtures -/

/-- A watcher state with no tracked file and an empty queue of capacity
1000, interval 60 (the constructor's defaults). -/
def baseWatcher : Watcher :=
  { files_included := some []
    files_excluded := some []
    files := []
    dirs := []
    handlers := []
    fds := []
    progress := []
    queue := { maxsize := 1000, items := [] }
    interval := 60
    stop_watch_flag := false }

/-- Filesystem with one regular file `/a.log` containing `x\n`. -/
def fsA : FS :=
  { files := [{ path := "/a.log", content := "x\n".data, canOpen := true }], dirs := [] }

/-- Filesystem with one regular file `/a.log` whose content `old\n` is
already present before the watcher opens it. -/
def fsOld : FS :=
  { files := [{ path := "/a.log", content := "old\n".data, canOpen := true }], dirs := [] }

/-- The watcher built over `fsOld` from include pattern `/a.log` with an
explicit empty exclude list. -/
def wOld : Watcher :=
  { baseWatcher with
    files_included := some ["/a.log"]
    files := ["/a.log"]
    fds := [("/a.log", some { pos := 0 })]
    progress := [("/a.log", 0)] }

/-- Filesystem with directory `/d` and a file `/d/new.log` (content `x\n`)
created inside it. -/
def fsD : FS :=
  { files := [{ path := "/d/new.log", content := "x\n".data, canOpen := true }], dirs := ["/d"] }

/-- The watcher built over `fsD` from pattern `/d` with `every = true`:
no file tracked yet, directory `/d` watched. -/
def wD : Watcher :=
  { baseWatcher with dirs := ["/d"] }

/-- The empty filesystem. -/
def fsE : FS := { files := [], dirs := [] }

/-- A watcher tracking `/n.log` whose handle is `None` (failed open). -/
def wN : Watcher :=
  { baseWatcher with fds := [("/n.log", none)], progress := [("/n.log", 0)] }

/-- `wN` after the null-handle poll cycle removed both entries. -/
def wN2 : Watcher :=
  { wN with fds := [], progress := [] }

/-- Filesystem with one file `/p.log` whose content `abc` has no trailing
newline yet (a writer mid-line). -/
def fsP : FS :=
  { files := [{ path := "/p.log", content := "abc".data, canOpen := true }], dirs := [] }

/-- A watcher tracking `/p.log` with its cursor at 0. -/
def wP : Watcher :=
  { baseWatcher with
    files := ["/p.log"]
    fds := [("/p.log", some { pos := 0 })]
    progress := [("/p.log", 0)] }

/-- A watcher tracking `/s.log` with an open handle. -/
def wStop : Watcher :=
  { baseWatcher with fds := [("/s.log", some { pos := 0 })], progress := [("/s.log", 0)] }

/-- `wStop` after a successful `stop()`: flag set, handle cleared to `None`. -/
def wStop2 : Watcher :=
  { wStop with stop_watch_flag := true, fds := [("/s.log", none)] }

/-- A watcher whose queue (capacity 1) already holds one undelivered entry. -/
def wQfull : Watcher :=
  { baseWatcher with queue := { maxsize := 1, items := [{ path := "/q.log", msg := "x\n" }] } }

/-- A watcher with an empty queue of capacity 1. -/
def wQempty : Watcher :=
  { baseWatcher with queue := { maxsize := 1, items := [] } }

/-- `wQempty` after one successful `put` of `y\n`. -/
def wQone : Watcher :=
  { wQempty with queue := { maxsize := 1, items := [{ path := "/q.log", msg := "y\n" }] } }

/-- A watcher tracking `/g.log` with two undelivered enqueued lines
(`a\n` of length 2, `bb\n` of length 3) and progress 0. -/
def wG : Watcher :=
  { baseWatcher with
    fds := [("/g.log", some { pos := 5 })]
    progress := [("/g.log", 0)]
    queue := { maxsize := 1000,
               items := [{ path := "/g.log", msg := "a\n" },
                         { path := "/g.log", msg := "bb\n" }] } }

/-- `wG` after one successful `get`: first entry consumed, progress 2. -/
def wG1 : Watcher :=
  { wG with
    progress := [("/g.log", 2)]
    queue := { maxsize := 1000, items := [{ path := "/g.log", msg := "bb\n" }] } }

/-- `wG` after a successful `put` of `c\n`. -/
def wGput : Watcher :=
  { wG with
    queue := { maxsize := 1000,
               items := [{ path := "/g.log", msg := "a\n" },
                         { path := "/g.log", msg := "bb\n" },
                         { path := "/g.log", msg := "c\n" }] } }

end LogWatcher

namespace LogWatcher

/-! ## Association-list lemmas -/

theorem lookupA_updateA_self {α : Type} (l : List (String × α)) (k : String) (v x : α)
    (h : lookupA l k = some v) : lookupA (updateA l k x) k = some x := by
  induction l with
  | nil => simp [lookupA] at h
  | cons kv rest ih =>
      obtain ⟨k1, v1⟩ := kv
      by_cases hk : k1 = k
      · simp [lookupA, updateA, hk]
      · simp [lookupA, updateA, hk] at h ⊢
        exact ih h

theorem lookupA_updateA_ne {α : Type} (l : List (String × α)) (k q : String) (x : α)
    (hne : k ≠ q) : lookupA (updateA l k x) q = lookupA l q := by
  induction l with
  | nil => simp [lookupA, updateA]
  | cons kv rest ih =>
      obtain ⟨k1, v1⟩ := kv
      by_cases hk : k1 = k
      · subst hk
        simp [lookupA, updateA, hne, ih]
      · simp [lookupA, updateA, hk, ih]

theorem lookupA_removeA_self {α : Type} (l : List (String × α)) (k : String) :
    lookupA (removeA l k) k = none := by
  induction l with
  | nil => simp [lookupA, removeA]
  | cons kv rest ih =>
      obtain ⟨k1, v1⟩ := kv
      by_cases hk : k1 = k
      · simpa [removeA, hk] using ih
      · simpa [removeA, lookupA, hk] using ih

theorem lookupA_mem_fst {α : Type} (l : List (String × α)) (k : String) (v : α)
    (h : lookupA l k = some v) : k ∈ l.map (fun kv => kv.1) := by
  induction l with
  | nil => simp [lookupA] at h
  | cons kv rest ih =>
      obtain ⟨k1, v1⟩ := kv
      by_cases hk : k1 = k
      · simp [hk]
      · simp [lookupA, hk] at h
        simp [ih h]

theorem stringMk_eq_empty {l : List Char} (h : String.mk l = "") : l = [] := by
  have := congrArg String.data h
  simpa using this

/-! ## Lemmas about stop, getN and the dispatcher loop -/

theorem closeAll_error (ks : List String) (w : Watcher) (q : String)
    (hq : q ∈ ks) (hnone : lookupA w.fds q = some none) :
    closeAll ks w = .error .attributeError := by
  induction ks generalizing w with
  | nil => cases hq
  | cons k rest ih =>
      by_cases hk : k = q
      · subst hk
        simp [closeAll, closeFD, hnone]
      · have hq2 : q ∈ rest := by
          rcases List.mem_cons.mp hq with h1 | h1
          · exact absurd h1.symm hk
          · exact h1
        cases hlk : lookupA w.fds k with
        | none =>
            simpa [closeAll, closeFD, hlk] using ih _ hq2 hnone
        | some o =>
            cases o with
            | none => simp [closeAll, closeFD, hlk]
            | some hdl =>
                have hpres : lookupA (updateA w.fds k none) q = some none := by
                  rw [lookupA_updateA_ne w.fds k q none hk]
                  exact hnone
                simpa [closeAll, closeFD, hlk] using
                  ih { w with fds := updateA w.fds k none } hq2 hpres

theorem getN_progress (items : List Entry) (w : Watcher) (p : String) (v : Nat)
    (hq : w.queue.items = items)
    (hall : ∀ e ∈ items, e.path = p)
    (hpr : lookupA w.progress p = some v) :
    ∃ wf msgs, getN items.length w = some (wf, msgs) ∧
      lookupA wf.progress p = some (v + sumLens items) := by
  induction items generalizing w v with
  | nil =>
      exact ⟨w, [], rfl, by simpa [sumLens] using hpr⟩
  | cons e rest ih =>
      have hep : e.path = p := hall e (List.mem_cons_self e rest)
      have hqget : qget w.queue = some (e, { w.queue with items := rest }) := by
        simp [qget, hq]
      have hcm : commitProgress { w with queue := { w.queue with items := rest } }
          e.path e.msg.length
          = .ok { w with queue := { w.queue with items := rest },
                         progress := updateA w.progress p (v + e.msg.length) } := by
        simp [commitProgress, hep, hpr]
      have hgm : getMsg w = .ok
          { w with queue := { w.queue with items := rest },
                   progress := updateA w.progress p (v + e.msg.length) }
          (pyStrip e.msg) := by
        simp [getMsg, hqget, hcm]
      have hpr2 : lookupA (updateA w.progress p (v + e.msg.length)) p
          = some (v + e.msg.length) :=
        lookupA_updateA_self w.progress p v (v + e.msg.length) hpr
      obtain ⟨wf, msgs, h1, h2⟩ :=
        ih { w with queue := { w.queue with items := rest },
                    progress := updateA w.progress p (v + e.msg.length) }
          (v + e.msg.length) rfl (fun e2 he2 => hall e2 (List.mem_cons_of_mem e he2)) hpr2
      refine ⟨wf, pyStrip e.msg :: msgs, ?_, ?_⟩
      · simp [getN, hgm, h1]
      · rw [h2]
        simp [sumLens]
        omega

theorem qput_some (q : WQueue) (e : Entry) (q2 : WQueue) (h : qput q e = some q2) :
    q2.maxsize = q.maxsize ∧ q2.items = q.items ++ [e] ∧
      (q.maxsize ≠ 0 → q.items.length < q.maxsize) := by
  unfold qput at h
  split at h
  · cases h
  · next hc =>
      cases h
      refine ⟨rfl, rfl, fun hne => ?_⟩
      have hc2 : ¬(q.maxsize ≠ 0 ∧ q.maxsize ≤ q.items.length) := by simpa using hc
      omega

theorem putMsg_some (w : Watcher) (p m : String) (w2 : Watcher)
    (h : putMsg w p m = some w2) :
    w2.progress = w.progress ∧ w2.fds = w.fds ∧ w2.queue.maxsize = w.queue.maxsize ∧
      (w2.queue.items = w.queue.items ∨
        (w2.queue.items = w.queue.items ++ [{ path := p, msg := m }] ∧
          (w.queue.maxsize ≠ 0 → w.queue.items.length < w.queue.maxsize))) := by
  unfold putMsg at h
  split at h
  · cases h
    exact ⟨rfl, rfl, rfl, Or.inl rfl⟩
  · cases hq : qput w.queue { path := p, msg := m } with
    | none => rw [hq] at h; cases h
    | some q2 =>
        rw [hq] at h
        simp only [Option.map_some'] at h
        cases h
        obtain ⟨h0, h1, h2⟩ := qput_some w.queue _ q2 hq
        exact ⟨rfl, rfl, h0, Or.inr ⟨h1, h2⟩⟩

theorem getMsg_ok_shape (wa wb : Watcher) (m : String) (h : getMsg wa = .ok wb m) :
    ∃ e rest v0, wa.queue.items = e :: rest ∧
      lookupA wa.progress e.path = some v0 ∧
      wb.progress = updateA wa.progress e.path (v0 + e.msg.length) := by
  unfold getMsg at h
  cases hit : wa.queue.items with
  | nil =>
      have hqg : qget wa.queue = none := by simp [qget, hit]
      rw [hqg] at h
      cases h
  | cons e rest =>
      have hqg : qget wa.queue = some (e, { wa.queue with items := rest }) := by
        simp [qget, hit]
      rw [hqg] at h
      simp only at h
      cases hcp : lookupA wa.progress e.path with
      | none =>
          have hcm : commitProgress { wa with queue := { wa.queue with items := rest } }
              e.path e.msg.length = .error .keyError := by
            simp [commitProgress, hcp]
          rw [hcm] at h
          cases h
      | some v0 =>
          cases hcm : commitProgress { wa with queue := { wa.queue with items := rest } }
              e.path e.msg.length with
          | error pe =>
              rw [hcm] at h
              cases h
          | ok w2 =>
              rw [hcm] at h
              cases h
              have h2 := hcm
              simp [commitProgress, hcp] at h2
              subst h2
              exact ⟨e, rest, v0, rfl, hcp, rfl⟩

theorem handleMsgAux_eq (msg : String) (hs : List Handler) (i : Nat) :
    handleMsgAux msg hs i = (List.enumFrom i hs).flatMap (fun ih =>
      DispatchEvent.eval ih.1 (ih.2.matchMsg msg) ::
        (if ih.2.matchMsg msg then ih.2.funcs.map (DispatchEvent.call ih.1) else [])) := by
  induction hs generalizing i with
  | nil => rfl
  | cons h rest ih =>
      simp [handleMsgAux, List.enumFrom, ih]

/-! ## Claim C1 -/

/-- Claim C1, as amended: `FileWatcher.open` positions the cursor of every
successfully opened handle at offset 0 — the beginning of the file, not
end-of-file — so content already present at open time is subsequently read
and delivered. -/
theorem c1_open_seeks_beginning (fs : FS) (p : String) (fe : FSFile)
    (hfind : fs.files.find? (fun x => x.path == p) = some fe)
    (hopen : fe.canOpen = true) :
    openFile fs p = some { pos := 0 } := by
  simp [openFile, hfind, hopen]

/-- Claim C1 witness: on `fsOld`, opening `/a.log` yields a handle at
offset 0. -/
theorem c1_witness : openFile fsOld "/a.log" = some { pos := 0 } :=
  c1_open_seeks_beginning fsOld "/a.log"
    { path := "/a.log", content := "old\n".data, canOpen := true } rfl rfl

/-- Claim C1 counterexample: `/a.log` contains `old\n` before the watcher is
constructed; the constructor opens it at offset 0 (not end-of-file, which
would be offset 4), and the very first poll cycle reads and enqueues the
historical line `old\n` — refuting "no line present before open time is ever
delivered". -/
theorem c1_counterexample :
    initWatcher fsOld (.pstr "/a.log") false (.plist []) 60 1000 = .ok wOld ∧
    lookupA wOld.fds "/a.log" = some (some { pos := 0 }) ∧
    (watchFileCycle fsOld wOld "/a.log").1.queue.items
      = [{ path := "/a.log", msg := "old\n" }] := by
  refine ⟨rfl, rfl, ?_⟩
  decide

/-! ## Claim C2 -/

/-- Claim C2: for every constructed `FileWatcher`, `run()` raises
`AttributeError` before creating any task, because line 204 reads
`self.paths`, an attribute never assigned by the class (the constructor
assigns `self.files`); hence no poller or dispatcher task is started. -/
theorem c2_run_attribute_error (w : Watcher) :
    runWatcher w = .error .attributeError := by
  have h : hasWatcherAttr "paths" = false := by decide
  simp [runWatcher, h]

/-! ## Claim C3 -/

/-- Claim C3 (code bug): with the include pattern `/a.log` resolving to one
file and the `exclude` parameter left at its default `None`,
`parse_path(None)` returns Python `None` (no `isinstance` branch applies),
so the `files` list comprehension of `__init__` evaluates `f not in None`
and raises `TypeError` — construction fails instead of yielding the
inclusion set. -/
theorem c3_default_exclude_raises :
    _parse_path fsA (some "/a.log") FILE_PICK_TYPE = ["/a.log"] ∧
    parse_path fsA .pnone FILE_PICK_TYPE = none ∧
    initWatcher fsA (.pstr "/a.log") false .pnone 60 1000 = .error .typeError := by
  refine ⟨by decide, rfl, rfl⟩

/-! ## Claim C7 -/

/-- Claim C7 (code bug): with directory-watching enabled on `/d`,
`watch_dir` re-resolves `parse_path(path)` with the default
`FILE_PICK_TYPE` over the directory path itself; the glob `/d` matches only
`/d`, which is not a regular file, so the resolution is empty and the file
`/d/new.log` created inside the watched directory is never opened or
registered, no matter how many rescan cycles run. -/
theorem c7_watch_dir_discovers_nothing :
    initWatcher fsD (.pstr "/d") true (.plist []) 60 1000 = .ok wD ∧
    _parse_path fsD (some "/d") FILE_PICK_TYPE = [] ∧
    (∀ n, watchDirRun fsD "/d" n wD = wD) ∧
    (∀ n, lookupA (watchDirRun fsD "/d" n wD).fds "/d/new.log" = none) := by
  have hcycle : watchDirCycle fsD wD "/d" = wD := rfl
  have hrun : ∀ n, watchDirRun fsD "/d" n wD = wD := by
    intro n
    induction n with
    | zero => rfl
    | succ n ih => simpa [watchDirRun, hcycle] using ih
  refine ⟨rfl, by decide, hrun, fun n => ?_⟩
  rw [hrun n]
  rfl

/-! ## Claim C4 -/

/-- Claim C4, as amended: `close(path)` is a no-op on a path that is not a
key of the handle table, but on an already-closed path — one whose stored
handle is `None` — it calls `None.close()` and raises `AttributeError`; and
`stop()` is not idempotent: whenever some tracked path holds a `None`
handle (after a failed open or a previous close), `stop()` raises
`AttributeError` while iterating the table. -/
theorem c4_close_stop_not_idempotent (w : Watcher) (p : String) :
    (lookupA w.fds p = none → closeFD w p = .ok w) ∧
    (lookupA w.fds p = some none → closeFD w p = .error .attributeError) ∧
    (lookupA w.fds p = some none → stopWatcher w = .error .attributeError) := by
  refine ⟨fun h => by simp [closeFD, h], fun h => by simp [closeFD, h], fun h => ?_⟩
  have hmem : p ∈ w.fds.map (fun kv => kv.1) := lookupA_mem_fst w.fds p none h
  exact closeAll_error (w.fds.map (fun kv => kv.1)) { w with stop_watch_flag := true } p hmem h

/-- Claim C4 witness: on `wStop2` (one tracked path `/s.log` whose handle is
already `None`), `close` of the unknown path `/y` is a no-op, `close` of
`/s.log` raises `AttributeError`, and `stop()` raises `AttributeError`. -/
theorem c4_witness :
    closeFD wStop2 "/y" = .ok wStop2 ∧
    closeFD wStop2 "/s.log" = .error .attributeError ∧
    stopWatcher wStop2 = .error .attributeError :=
  ⟨(c4_close_stop_not_idempotent wStop2 "/y").1 rfl,
   (c4_close_stop_not_idempotent wStop2 "/s.log").2.1 rfl,
   (c4_close_stop_not_idempotent wStop2 "/s.log").2.2 rfl⟩

/-- Claim C4 counterexample: on `wStop` (one open handle for `/s.log`), the
first `stop()` succeeds and leaves the handle entry `None`; the second
`stop()` raises `AttributeError` instead of succeeding, and so does a second
`close` of the same path — refuting both the idempotence of `stop` and the
safety of `close` on an already-closed path. -/
theorem c4_counterexample :
    stopWatcher wStop = .ok wStop2 ∧
    stopWatcher wStop2 = .error .attributeError ∧
    closeFD wStop2 "/s.log" = .error .attributeError :=
  ⟨rfl, rfl, rfl⟩

/-! ## Claim C5 -/

/-- Claim C5, as amended: the file poller forwards whatever non-empty string
`readline` returns on this cycle — including a line lacking a trailing
newline, which `readline` yields at end-of-file — enqueueing it immediately
and advancing the cursor past it; nothing is deferred to a later cycle (only
an empty read enqueues nothing). -/
theorem c5_poller_delivers_unterminated_reads (fs : FS) (w : Watcher) (p : String) (h : Handle)
    (hfd : lookupA w.fds p = some (some h))
    (hne : readlineFrom (contentOf fs p) h.pos ≠ [])
    (hroom : w.queue.items.length < w.queue.maxsize) :
    (watchFileCycle fs w p).2 = .read (String.mk (readlineFrom (contentOf fs p) h.pos)) ∧
    (watchFileCycle fs w p).1.queue.items
      = w.queue.items ++ [{ path := p, msg := String.mk (readlineFrom (contentOf fs p) h.pos) }] ∧
    lookupA (watchFileCycle fs w p).1.fds p
      = some (some { pos := h.pos + (readlineFrom (contentOf fs p) h.pos).length }) := by
  have hmsg : ¬ (String.mk (readlineFrom (contentOf fs p) h.pos) = "") := by
    intro heq
    exact hne (stringMk_eq_empty heq)
  have hle : ¬ (w.queue.maxsize ≤ w.queue.items.length) := Nat.not_le.mpr hroom
  have hup : lookupA (updateA w.fds p
      (some { pos := h.pos + (readlineFrom (contentOf fs p) h.pos).length })) p
      = some (some { pos := h.pos + (readlineFrom (contentOf fs p) h.pos).length }) :=
    lookupA_updateA_self w.fds p (some h) _ hfd
  refine ⟨?_, ?_, ?_⟩ <;>
    simp [watchFileCycle, hfd, putMsg, qput, hmsg, hle, hup]

/-- Claim C5 witness: `/p.log` contains `abc` with no trailing newline; the
poll cycle enqueues `abc` anyway and moves the cursor to 3. -/
theorem c5_witness :
    (watchFileCycle fsP wP "/p.log").2 = .read "abc" ∧
    (watchFileCycle fsP wP "/p.log").1.queue.items = [{ path := "/p.log", msg := "abc" }] ∧
    lookupA (watchFileCycle fsP wP "/p.log").1.fds "/p.log" = some (some { pos := 3 }) :=
  c5_poller_delivers_unterminated_reads fsP wP "/p.log" { pos := 0 } rfl (by decide) (by decide)

/-- Claim C5 counterexample: on `/p.log` containing the newline-less text
`abc`, one poll cycle leaves the queue non-empty (the partial line was
enqueued) and the cursor advanced away from 0 — refuting "a line read
without a trailing newline is not enqueued and the cursor is left
unadvanced". -/
theorem c5_counterexample :
    (watchFileCycle fsP wP "/p.log").1.queue.items ≠ [] ∧
    lookupA (watchFileCycle fsP wP "/p.log").1.fds "/p.log" ≠ some (some { pos := 0 }) := by
  refine ⟨by decide, by decide⟩

/-! ## Claim C6 -/

/-- Claim C6, as amended: on the poll cycle after a path's handle becomes
`None`, the poller removes the path from both the handle table and the
progress table, and afterwards never reads or enqueues for it again — every
later cycle merely raises a caught `KeyError` and leaves the state
unchanged; but the poller loop does not terminate: while the stop flag is
unset the loop keeps running a cycle every interval. -/
theorem c6_null_handle_removed_but_loop_continues (fs : FS) (w : Watcher) (p : String) (v : Nat)
    (hflag : w.stop_watch_flag = false)
    (hfd : lookupA w.fds p = some none)
    (hpr : lookupA w.progress p = some v) :
    watchFileLoopStep fs w p
      = some ({ w with fds := removeA w.fds p, progress := removeA w.progress p },
              .removed) ∧
    lookupA (removeA w.fds p) p = none ∧
    lookupA (removeA w.progress p) p = none ∧
    (∀ w2 : Watcher, lookupA w2.fds p = none →
      watchFileCycle fs w2 p = (w2, .keyErrorCaught)) ∧
    (∀ w2 : Watcher, w2.stop_watch_flag = false →
      watchFileLoopStep fs w2 p = some (watchFileCycle fs w2 p)) := by
  refine ⟨?_, lookupA_removeA_self w.fds p, lookupA_removeA_self w.progress p,
    fun w2 h2 => by simp [watchFileCycle, h2],
    fun w2 h2 => by simp [watchFileLoopStep, h2]⟩
  simp [watchFileLoopStep, hflag, watchFileCycle, hfd, hpr]

/-- Claim C6 witness: on `wN` (path `/n.log` with a `None` handle), the next
loop step removes both entries, and on the resulting state a further cycle
is a caught `KeyError` that changes nothing while the loop keeps going. -/
theorem c6_witness :
    watchFileLoopStep fsE wN "/n.log" = some (wN2, .removed) ∧
    lookupA wN2.fds "/n.log" = none ∧
    watchFileCycle fsE wN2 "/n.log" = (wN2, .keyErrorCaught) ∧
    watchFileLoopStep fsE wN2 "/n.log" = some (watchFileCycle fsE wN2 "/n.log") :=
  ⟨(c6_null_handle_removed_but_loop_continues fsE wN "/n.log" 0 rfl rfl rfl).1,
   (c6_null_handle_removed_but_loop_continues fsE wN "/n.log" 0 rfl rfl rfl).2.1,
   (c6_null_handle_removed_but_loop_continues fsE wN "/n.log" 0 rfl rfl rfl).2.2.2.1 wN2 rfl,
   (c6_null_handle_removed_but_loop_continues fsE wN "/n.log" 0 rfl rfl rfl).2.2.2.2 wN2 rfl⟩

/-- Claim C6 counterexample: after the removal cycle on `wN`, the loop guard
still passes and the path is polled again (the cycle runs and raises a
caught `KeyError`) — refuting "the poller terminates for that path and it is
never polled again". -/
theorem c6_counterexample :
    watchFileLoopStep fsE wN "/n.log" = some (wN2, .removed) ∧
    watchFileLoopStep fsE wN2 "/n.log" = some (wN2, .keyErrorCaught) :=
  ⟨rfl, rfl⟩

/-! ## Claim C8 -/

/-- Claim C8: with queue capacity `K` (positive), a `put` of a non-empty
message while `K` entries are undelivered blocks the producer (no drop, no
overflow), and any `put` that does complete keeps the number of resident
entries at most `K`. -/
theorem c8_queue_backpressure (w : Watcher) (p m : String) (K : Nat)
    (hmax : w.queue.maxsize = K) (hK : 0 < K) :
    (w.queue.items.length = K → m ≠ "" → putMsg w p m = none) ∧
    (∀ w2, putMsg w p m = some w2 → w.queue.items.length ≤ K →
      w2.queue.items.length ≤ K) := by
  have hKne : K ≠ 0 := Nat.pos_iff_ne_zero.mp hK
  constructor
  · intro hlen hm
    simp [putMsg, qput, hm, hmax, hlen, hKne]
  · intro w2 hput hlen
    obtain ⟨-, -, -, hcase⟩ := putMsg_some w p m w2 hput
    rcases hcase with hsame | ⟨happ, hlt⟩
    · rw [hsame]; exact hlen
    · rw [happ]
      have := hlt (hmax ▸ hKne)
      simp only [List.length_append, List.length_cons, List.length_nil]
      omega

/-- Claim C8 witness: with capacity 1 and one undelivered entry, a `put` of
`y\n` blocks; with capacity 1 and an empty queue, a completed `put` leaves
at most one resident entry. -/
theorem c8_witness :
    putMsg wQfull "/q.log" "y\n" = none ∧
    wQone.queue.items.length ≤ 1 :=
  ⟨(c8_queue_backpressure wQfull "/q.log" "y\n" 1 rfl (by decide)).1 rfl (by decide),
   (c8_queue_backpressure wQempty "/q.log" "y\n" 1 rfl (by decide)).2 wQone rfl (by decide)⟩

/-! ## Claim C9 -/

/-- Claim C9: for a tracked path, `getN` over the `N` undelivered entries of
that path succeeds and leaves the recorded progress equal to its previous
value plus the sum of the raw (pre-strip) lengths of the delivered lines;
`put` never changes any progress entry (an enqueued-but-unconsumed line does
not advance the offset); and a single successful `get` never decreases any
path's recorded progress. -/
theorem c9_offset_bookkeeping (w : Watcher) (p : String) (v : Nat)
    (hall : ∀ e ∈ w.queue.items, e.path = p)
    (hpr : lookupA w.progress p = some v) :
    ((getN w.queue.items.length w).map (fun r => lookupA r.1.progress p)
      = some (some (v + sumLens w.queue.items))) ∧
    (∀ pth m w2, putMsg w pth m = some w2 → w2.progress = w.progress) ∧
    (∀ wa wb m q val val2, getMsg wa = .ok wb m →
      lookupA wa.progress q = some val → lookupA wb.progress q = some val2 →
      val ≤ val2) := by
  refine ⟨?_, ?_, ?_⟩
  · obtain ⟨wf, msgs, h1, h2⟩ := getN_progress w.queue.items w p v rfl hall hpr
    rw [h1]
    simpa using h2
  · intro pth m w2 hput
    exact (putMsg_some w pth m w2 hput).1
  · intro wa wb m q val val2 hget hva hvb
    obtain ⟨e, rest, v0, hit, hcp, hwb⟩ := getMsg_ok_shape wa wb m hget
    by_cases hq : e.path = q
    · subst hq
      have hval : val = v0 := Option.some.inj (hva.symm.trans hcp)
      have hupd : lookupA wb.progress e.path = some (v0 + e.msg.length) := by
        rw [hwb]
        exact lookupA_updateA_self wa.progress e.path v0 _ hcp
      have : val2 = v0 + e.msg.length := Option.some.inj (hvb.symm.trans hupd)
      omega
    · have hsame : lookupA wb.progress q = lookupA wa.progress q := by
        rw [hwb]
        exact lookupA_updateA_ne wa.progress e.path q _ hq
      have : val2 = val := Option.some.inj ((hvb.symm.trans hsame).trans hva)
      omega

/-- Claim C9 witness: on `wG` (two undelivered lines `a\n` and `bb\n` for
`/g.log`, progress 0), consuming both leaves progress 5 = 2 + 3; a `put` of
`c\n` leaves the progress table untouched; and a single `get` moves the
recorded progress from 0 to 2, which does not decrease it. -/
theorem c9_witness :
    ((getN 2 wG).map (fun r => lookupA r.1.progress "/g.log") = some (some 5)) ∧
    wGput.progress = wG.progress ∧
    (0 : Nat) ≤ 2 :=
  ⟨(c9_offset_bookkeeping wG "/g.log" 0 (by decide) rfl).1,
   (c9_offset_bookkeeping wG "/g.log" 0 (by decide) rfl).2.1 "/g.log" "c\n" wGput rfl,
   (c9_offset_bookkeeping wG "/g.log" 0 (by decide) rfl).2.2 wG wG1 "a" "/g.log" 0 2
     rfl rfl rfl⟩

/-! ## Claim C10 -/

/-- Claim C10: `register_handler` appends to the ordered handler list, and
`handle_msg` evaluates each handler's predicate in registration order,
invoking — for every handler whose predicate matches the dispatched line —
all of that handler's action functions in their registered order before any
later handler is considered: its event trace equals the declarative
`dispatchSpec` order. -/
theorem c10_dispatch_order :
    (∀ (hs : List Handler) (h : Handler), register_handler hs h = hs ++ [h]) ∧
    (∀ (handlers : List Handler) (msg : String),
      handle_msg handlers msg = dispatchSpec handlers msg) := by
  refine ⟨fun hs h => rfl, fun handlers msg => ?_⟩
  rw [handle_msg, handleMsgAux_eq]
  rfl

end LogWatcher
